import Mathlib

/-!
Verification of the LiteX Verilog backend (`litex/gen/fhdl/verilog.py`)
against its natural-language specification.

The Python source is shallowly embedded below.  Pure printing functions
become Lean functions over an explicit IR; the one piece of mutable state
relevant to the conversion entry point (the mutable default value of the
`ios` argument of `convert`, together with the global signal-identity
counter) is passed explicitly as a `ConvState`.  Collaborator code that
lives outside this repository (migen's `group_by_targets`, `list_targets`,
`is_variable`, `build_namespace`, `ClockDomain` construction, the banner
generator and the lowering passes) is modelled from the specification;
each such definition carries a doc comment starting with
`Modelled from the spec:`.
-/

/-! ## Generic list helpers (Python `sorted`, set union, …) -/

/-- Insert `x` into `l` before the first element `y` with `le x y`;
together with `sortStable` this implements Python's stable `sorted`. -/
def insertLe (le : α → α → Bool) (x : α) : List α → List α
  | [] => [x]
  | y :: ys => if le x y then x :: y :: ys else y :: insertLe le x ys

/-- Stable insertion sort, the model of Python's `sorted(l, key=...)`. -/
def sortStable (le : α → α → Bool) : List α → List α
  | [] => []
  | x :: xs => insertLe le x (sortStable le xs)

/-- Python set union `a |= b` restricted to lists used as sets:
elements of `b` not already present are appended. -/
def setUnion [BEq α] (a b : List α) : List α :=
  a ++ b.filter (fun x => !(a.contains x))

/-- Code-point lexicographic `≤` on character lists, the order Python's
string comparison uses. -/
def pyCharListLe : List Char → List Char → Bool
  | [], _ => true
  | _ :: _, [] => false
  | a :: as', b :: bs =>
      if a.toNat < b.toNat then true
      else if b.toNat < a.toNat then false
      else pyCharListLe as' bs

/-- Code-point lexicographic `<` on character lists. -/
def pyCharListLt : List Char → List Char → Bool
  | [], [] => false
  | [], _ :: _ => true
  | _ :: _, [] => false
  | a :: as', b :: bs =>
      if a.toNat < b.toNat then true
      else if b.toNat < a.toNat then false
      else pyCharListLt as' bs

/-- Python's string `<=`: code-point lexicographic comparison. -/
def pyStrLe (a b : String) : Bool :=
  pyCharListLe a.data b.data

/-- Python's string `<`: code-point lexicographic comparison. -/
def pyStrLt (a b : String) : Bool :=
  pyCharListLt a.data b.data

/-! ## Data model

The IR mirrors `migen.fhdl.structure`: `Constant`, `Signal`, `_Operator`,
`_Slice`, `Cat`, `Replicate` on the expression side and `_Assign`, `If`,
`Case`, `Display`, `Finish` on the statement side.  A `Sig` carries the
name the namespace resolves for it (`ns.get_name`), its declared
signedness, bit width, reset constant, migen's `variable` flag (spec
§4.3's "variable-like storage location"), its creation ordinal `duid`,
and its attribute set. -/

/-- A migen `Constant`: immutable value, bit width, signed flag. -/
structure Const where
  value : Int
  nbits : Nat
  signed : Bool
deriving DecidableEq, Repr

/-- An attribute value: Python `str` or `int` (see `_print_attribute`). -/
inductive AttrValue where
  | str (v : String)
  | int (v : Int)
deriving DecidableEq, Repr

/-- One element of a signal's attribute set: either a bare name (to be
translated) or an explicit `(name, value)` tuple. -/
inductive Attr where
  | str (name : String)
  | tup (name : String) (value : AttrValue)
deriving DecidableEq, Repr

/-- A migen `Signal` as seen by the backend.  `name` is the identifier the
namespace returns for it (`ns.get_name s`); `var` is migen's
`Signal.variable` flag, spec §4.3's "variable-like storage location". -/
structure Sig where
  name : String
  signed : Bool
  len : Nat
  reset : Const
  var : Bool
  duid : Nat
  attr : List Attr
deriving DecidableEq, Repr

/-- IR expressions, one constructor per `isinstance` branch of
`_print_expression`. -/
inductive Expr where
  | const (c : Const)
  | sig (s : Sig)
  | op1 (op : String) (a : Expr)
  | op2 (op : String) (a b : Expr)
  | op3 (a b c : Expr)
  | slice (value : Expr) (start stop : Nat)
  | cat (l : List Expr)
  | replicate (n : Nat) (v : Expr)

/-- IR statements, one constructor per `isinstance` branch of
`_print_node`.  `Case` keeps its constant-keyed arms in insertion order
plus an optional `"default"` arm; `If` keeps an empty false-branch for a
missing `Else`.  `Display` arguments are modelled as signals (the only
argument kind the claims exercise). -/
inductive Stmt where
  | assign (l r : Expr)
  | ifS (cond : Expr) (t : List Stmt) (f : List Stmt)
  | caseS (test : Expr) (arms : List (Const × List Stmt)) (dflt : Option (List Stmt))
  | display (s : String) (args : List Sig)
  | finish

/-- A clock domain: name plus registered clock and reset signals. -/
structure ClockDomain where
  name : String
  clk : Sig
  rst : Sig
deriving DecidableEq, Repr

/-- A migen `_Fragment` restricted to what the backend reads: the
combinational statement list, the synchronous statement blocks keyed by
clock-domain name (dict items, keys distinct), and the clock-domain
registry. -/
structure Fragment where
  comb : List Stmt
  sync : List (String × List Stmt)
  clock_domains : List ClockDomain

/-! ## Reserved keywords (source lines 32-83, copied verbatim —
including the three entries that carry embedded leading spaces in the
source: `"      repeat"`, `"       union"` and `"   uwire"`). -/

def _ieee_1800_2017_verilog_reserved_keywords : List String := [
  "accept_on", "alias", "always", "always_comb", "always_ff",
  "always_latch", "and", "assert", "assign", "assume",
  "automatic", "before", "begin", "bind", "bins",
  "binsof", "bit", "break", "buf", "bufif0",
  "bufif1", "byte", "case", "casex", "casez",
  "cell", "chandle", "checker", "class", "clocking",
  "cmos", "config", "const", "constraint", "context",
  "continue", "cover", "covergroup", "coverpoint", "cross",
  "deassign", "default", "defparam", "design", "disable",
  "dist", "do", "edge", "else", "end",
  "endcase", "endchecker", "endclass", "endclocking", "endconfig",
  "endfunction", "endgenerate", "endgroup", "endinterface", "endmodule",
  "endpackage", "endprimitive", "endprogram", "endproperty", "endsequence",
  "endspecify", "endtable", "endtask", "enum", "event",
  "eventually", "expect", "export", "extends", "extern",
  "final", "first_match", "for", "force", "foreach",
  "forever", "fork", "forkjoin", "function", "generate",
  "genvar", "global", "highz0", "highz1", "if",
  "iff", "ifnone", "ignore_bins", "illegal_bins", "implements",
  "implies", "import", "incdir", "include", "initial",
  "inout", "input", "inside", "instance", "int",
  "integer", "interconnect", "interface", "intersect", "join",
  "join_any", "join_none", "large", "let", "liblist",
  "library", "local", "localparam", "logic", "longint",
  "macromodule", "matches", "medium", "modport", "module",
  "nand", "negedge", "nettype", "new", "nexttime",
  "nmos", "nor", "noshowcancelled", "not", "notif0",
  "notif1", "null", "or", "output", "package",
  "packed", "parameter", "pmos", "posedge", "primitive",
  "priority", "program", "property", "protected", "pull0",
  "pull1", "pulldown", "pullup", "pulsestyle_ondetect", "pulsestyle_onevent",
  "pure", "rand", "randc", "randcase", "randsequence",
  "rcmos", "real", "realtime", "ref", "reg",
  "reject_on", "release", "      repeat", "restrict", "return",
  "rnmos", "rpmos", "rtran", "rtranif0", "rtranif1",
  "s_always", "s_eventually", "s_nexttime", "s_until", "s_until_with",
  "scalared", "sequence", "shortint", "shortreal", "showcancelled",
  "signed", "small", "soft", "solve", "specify",
  "specparam", "static", "string", "strong", "strong0",
  "strong1", "struct", "super", "supply0", "supply1",
  "sync_accept_on", "sync_reject_on", "table", "tagged", "task",
  "this", "throughout", "time", "timeprecision", "timeunit",
  "tran", "tranif0", "tranif1", "tri", "tri0",
  "tri1", "triand", "trior", "trireg", "type",
  "typedef", "       union", "unique", "unique0", "unsigned",
  "until", "until_with", "untyped", "use", "   uwire",
  "var", "vectored", "virtual", "void", "wait",
  "wait_order", "wand", "weak", "weak0", "weak1",
  "while", "wildcard", "wire", "with", "within",
  "wor", "xnor", "xor"]

/-! ## Signal and constant printers (source lines 87-101) -/

/-- `_print_signal` (source lines 87-92). -/
def _print_signal (s : Sig) : String :=
  (if !s.signed then "" else "signed ") ++
  (if s.len ≤ 1 then "" else "[" ++ toString (s.len - 1) ++ ":0] ") ++
  s.name

/-- `_print_constant` (source lines 96-101): literal text and signedness. -/
def _print_constant (node : Const) : String × Bool :=
  ((if node.value ≥ 0 then "" else "-") ++
   toString node.nbits ++ "\x27d" ++ toString node.value.natAbs,
   node.signed)

/-! ## Expression renderer (source lines 105-210) -/

/-- `to_signed` (source lines 113-114): the f-string
`f"$signed({{1'd0 {r}}}))"`, which evaluates to the text
`$signed({1'd0 ` + r + `}))` — no comma after the zero bit and one more
closing parenthesis than opening ones. -/
def to_signed (r : String) : String :=
  "$signed(\x7b1\x27d0 " ++ r ++ "\x7d))"

/-- The guard of `_print_slice`'s special case (source line 162):
`isinstance(node.value, Signal) and len(node.value) == 1`. -/
def isOneBitSignal : Expr → Bool
  | .sig s => s.len = 1
  | _ => false

mutual

/-- `_print_expression` (source lines 183-210) together with the helpers
it dispatches to: `_print_operator` (107-156, the `op1`/`op2`/`op3`
branches; the ternary operator-symbol assertion and the 1-3 arity
assertion are encoded by the constructors), `_print_slice` (160-168),
`_print_cat` (172-174) and `_print_replicate` (178-179).  Returns the
rendered text and its signedness flag. -/
def _print_expression : Expr → String × Bool
  | .const c => _print_constant c
  | .sig s => (s.name, s.signed)
  | .op1 op a =>
      let (r1, s1) := _print_expression a
      if op = "-" then
        ("(" ++ ("-" ++ (if s1 then r1 else to_signed r1)) ++ ")", true)
      else
        ("(" ++ (op ++ r1) ++ ")", s1)
  | .op2 op a b =>
      let (r1, s1) := _print_expression a
      let (r2, s2) := _print_expression b
      let r1 := if (op ≠ "<<<" ∧ op ≠ ">>>") ∧ (s2 ∧ ¬s1) then to_signed r1 else r1
      let r2 := if (op ≠ "<<<" ∧ op ≠ ">>>") ∧ (s1 ∧ ¬s2) then to_signed r2 else r2
      ("(" ++ (r1 ++ " " ++ op ++ " " ++ r2) ++ ")", s1 || s2)
  | .op3 a b c =>
      let (r1, _) := _print_expression a
      let (r2, s2) := _print_expression b
      let (r3, s3) := _print_expression c
      let r3 := if s2 ∧ ¬s3 then to_signed r3 else r3
      let r2 := if s3 ∧ ¬s2 then to_signed r2 else r2
      ("(" ++ (r1 ++ " ? " ++ r2 ++ " : " ++ r3) ++ ")", s2 || s3)
  | .slice v start stop =>
      let sr :=
        if isOneBitSignal v then ""
        else if stop - start > 1 then
          "[" ++ toString (stop - 1) ++ ":" ++ toString start ++ "]"
        else
          "[" ++ toString start ++ "]"
      let (r, s) := _print_expression v
      (r ++ sr, s)
  | .cat l =>
      ("\x7b" ++ String.intercalate ", " (_print_expression_list l).reverse ++ "\x7d",
       false)
  | .replicate n v =>
      ("\x7b" ++ toString n ++ "\x7b" ++ (_print_expression v).1 ++ "\x7d\x7d",
       false)

def _print_expression_list : List Expr → List String
  | [] => []
  | e :: es => (_print_expression e).1 :: _print_expression_list es

end

/-! ## Statement renderer (source lines 215-269) -/

/-- Assignment modes `(_AT_BLOCKING, _AT_NONBLOCKING, _AT_SIGNAL)`
(source line 215). -/
inductive At where
  | blocking
  | nonblocking
  | signal
deriving DecidableEq, Repr

/-- `"\t"*level`. -/
def tabs (level : Nat) : String :=
  String.join (List.replicate level "\t")

mutual

/-- Modelled from the spec: migen's `is_variable` (imported from
`migen.fhdl.tools`, not part of this repository's sources).  Spec §4.3:
context-dependent mode "chooses blocking only when the destination
expression is itself a variable-like (non-registered) storage location";
the variable-likeness of a signal is its `variable` flag, and a slice or
concatenation is variable-like when its components are. -/
def is_variable : Expr → Bool
  | .sig s => s.var
  | .slice v _ _ => is_variable v
  | .cat l => is_variable_list l
  | _ => false

def is_variable_list : List Expr → Bool
  | [] => true
  | e :: es => is_variable e && is_variable_list es

end

mutual

/-- Modelled from the spec: migen's `list_targets` restricted to one
assignment target expression (signals written through a plain reference,
a slice, or a concatenation). -/
def lhs_signals : Expr → List Sig
  | .sig s => [s]
  | .slice v _ _ => lhs_signals v
  | .cat l => lhs_signals_list l
  | _ => []

def lhs_signals_list : List Expr → List Sig
  | [] => []
  | e :: es => lhs_signals e ++ lhs_signals_list es

end

mutual

/-- Modelled from the spec: migen's `list_targets` on one statement
(spec §4.3: a statement's "write targets"). -/
def list_targets_stmt : Stmt → List Sig
  | .assign l _ => lhs_signals l
  | .ifS _ t f => list_targets_stmts t ++ list_targets_stmts f
  | .caseS _ arms dflt =>
      list_targets_arms arms ++
      (match dflt with
       | some ds => list_targets_stmts ds
       | none => [])
  | .display _ _ => []
  | .finish => []

def list_targets_stmts : List Stmt → List Sig
  | [] => []
  | s :: ss => list_targets_stmt s ++ list_targets_stmts ss

def list_targets_arms : List (Const × List Stmt) → List Sig
  | [] => []
  | a :: rest => list_targets_stmts a.2 ++ list_targets_arms rest

end

/-- The target-filter guard at the top of `_print_node` (source lines
218-219): a filtered call renders nothing when the filter signal is not
among the node's write targets. -/
def tfMisses (tf : Option Sig) (targets : List Sig) : Bool :=
  match tf with
  | none => false
  | some t => !(targets.contains t)

mutual

/-- `_print_node` (source lines 217-269).  `Case` arms are rendered
per-arm and then stably sorted by the arm constant's value; because
Python's `sorted` is stable and its comparison key is the constant value
alone, sorting the rendered `(value, text)` pairs produces the same text
as the source's sort-then-render. -/
def _print_node (mode : At) (level : Nat) (node : Stmt) (tf : Option Sig) : String :=
  if tfMisses tf (list_targets_stmt node) then ""
  else match node with
  | .assign l r =>
      let assignment :=
        match mode with
        | .blocking => " = "
        | .nonblocking => " <= "
        | .signal => if is_variable l then " = " else " <= "
      tabs level ++ (_print_expression l).1 ++ assignment ++
        (_print_expression r).1 ++ ";\n"
  | .ifS cond t f =>
      tabs level ++ "if (" ++ (_print_expression cond).1 ++ ") begin\n" ++
      _print_nodes mode (level + 1) t tf ++
      (if f.isEmpty then ""
       else tabs level ++ "end else begin\n" ++ _print_nodes mode (level + 1) f tf) ++
      tabs level ++ "end\n"
  | .caseS test arms dflt =>
      if arms.isEmpty && dflt.isNone then ""
      else
        tabs level ++ "case (" ++ (_print_expression test).1 ++ ")\n" ++
        String.join ((sortStable (fun a b => decide (a.1 ≤ b.1))
            (_print_arms mode level arms tf)).map (fun p => p.2)) ++
        (match dflt with
         | some ds =>
             tabs (level + 1) ++ "default: begin\n" ++
             _print_nodes mode (level + 2) ds tf ++
             tabs (level + 1) ++ "end\n"
         | none => "") ++
        tabs level ++ "endcase\n"
  | .display s args =>
      tabs level ++ "$display(" ++ "\"" ++ s ++ "\"" ++
      String.join (args.map (fun a => ", " ++ a.name)) ++ ");\n"
  | .finish => tabs level ++ "$finish;\n"

/-- The `collections.abc.Iterable` branch of `_print_node` (source lines
230-231): a statement list renders as the concatenation of its members'
renderings under the same filter.  (The source also applies the
target-filter guard to the list as a whole; that guard returns the empty
string exactly when every member's own guard does, so the whole-list
check is output-equivalent and omitted here.) -/
def _print_nodes (mode : At) (level : Nat) (nodes : List Stmt) (tf : Option Sig) : String :=
  match nodes with
  | [] => ""
  | n :: rest => _print_node mode level n tf ++ _print_nodes mode level rest tf

/-- The constant-keyed `Case` arms (source lines 243-248), rendered in
insertion order and paired with their sorting key `choice.value`. -/
def _print_arms (mode : At) (level : Nat) (arms : List (Const × List Stmt))
    (tf : Option Sig) : List (Int × String) :=
  match arms with
  | [] => []
  | (choice, statements) :: rest =>
      (choice.value,
        tabs (level + 1) ++ (_print_expression (.const choice)).1 ++ ": begin\n" ++
        _print_nodes mode (level + 2) statements tf ++
        tabs (level + 1) ++ "end\n") ::
      _print_arms mode level rest tf

end

/-! ## Attribute printer (source lines 273-294) -/

/-- The sorting key of `_print_attribute` (source line 277):
`("", x) if isinstance(x, str) else x`. -/
def attrKey : Attr → String × AttrValue
  | .str s => ("", AttrValue.str s)
  | .tup n v => (n, v)

/-- Python comparison of two attribute values appearing as the second
component of a sorting key.  Comparing an `int` with a `str` raises
`TypeError` in Python; that case (reachable only for two attributes whose
key names are equal while their value kinds differ) is modelled
arbitrarily as `int` first. -/
def attrValLe : AttrValue → AttrValue → Bool
  | .str a, .str b => pyStrLe a b
  | .int a, .int b => a ≤ b
  | .int _, .str _ => true
  | .str _, .int _ => false

/-- Lexicographic comparison of attribute sorting keys. -/
def attrLe (a b : Attr) : Bool :=
  if (attrKey a).1 = (attrKey b).1 then attrValLe (attrKey a).2 (attrKey b).2
  else pyStrLt (attrKey a).1 (attrKey b).1

/-- A Python `dict` used as an attribute translator, holding its stored
entries.  `dict.get` reads the stored entries directly and never consults
a subclass's `__getitem__` override. -/
structure PyDict where
  entries : List (String × (String × AttrValue))
deriving DecidableEq, Repr

/-- `attr_translate.get(attr, None)` (source line 283): plain `dict.get`,
a lookup in the stored entries. -/
def PyDict.get (d : PyDict) (k : String) : Option (String × AttrValue) :=
  (d.entries.find? (fun p => p.1 == k)).map (fun p => p.2)

/-- `_print_attribute` (source lines 273-294). -/
def _print_attribute (attr : List Attr) (attr_translate : PyDict) : String :=
  let step := fun (acc : String × Bool) (a : Attr) =>
    let (r, firsta) := acc
    let translated : Option (String × AttrValue) :=
      match a with
      | .tup n v => some (n, v)
      | .str n => attr_translate.get n
    match translated with
    | none => (r, firsta)
    | some (attr_name, attr_value) =>
        let r := if !firsta then r ++ ", " else r
        let const_expr :=
          match attr_value with
          | .str v => "\"" ++ v ++ "\""
          | .int v => toString v
        (r ++ attr_name ++ " = " ++ const_expr, false)
  let (r, _) := (sortStable attrLe attr).foldl step ("", true)
  if r ≠ "" then "(* " ++ r ++ " *)" else ""

/-! ## Grouping and module structure (source lines 298-350) -/

/-- Disjointness of two signal lists used as sets. -/
def disjointSigs (a b : List Sig) : Bool :=
  a.all (fun x => !(b.contains x))

/-- Modelled from the spec: migen's `group_by_targets` (imported from
`migen.fhdl.tools`, not part of this repository's sources).  Spec §4.5:
"groups statements by the set of signals they jointly write (statements
sharing any write target are grouped together)", keeping statements in
original order.  Each step folds the next statement into the existing
groups: groups whose target sets meet the statement's targets are merged
with it (their statements kept in order, the new statement last). -/
def group_by_targets (sl : List Stmt) : List (List Sig × List Stmt) :=
  sl.foldl (fun groups statement =>
    let targets := (list_targets_stmt statement).dedup
    let overlapping := groups.filter (fun g => !(disjointSigs g.1 targets))
    let rest := groups.filter (fun g => disjointSigs g.1 targets)
    rest ++ [(overlapping.foldl (fun acc g => setUnion acc g.1) targets,
              (overlapping.map (fun g => g.2)).flatten ++ [statement])]) []

/-- `_list_comb_wires` (source lines 298-304): the targets of groups made
of exactly one direct assignment. -/
def _list_comb_wires (f : Fragment) : List Sig :=
  (group_by_targets f.comb).foldl (fun r g =>
    match g.2 with
    | [Stmt.assign _ _] => setUnion r g.1
    | _ => r) []

mutual

/-- Modelled from the spec: migen's `list_signals` on an expression —
every signal the expression mentions (spec §4.8(5): "every signal
appearing in declarations, ports, or primitive pins"). -/
def signals_of_expr : Expr → List Sig
  | .const _ => []
  | .sig s => [s]
  | .op1 _ a => signals_of_expr a
  | .op2 _ a b => signals_of_expr a ++ signals_of_expr b
  | .op3 a b c => signals_of_expr a ++ signals_of_expr b ++ signals_of_expr c
  | .slice v _ _ => signals_of_expr v
  | .cat l => signals_of_expr_list l
  | .replicate _ v => signals_of_expr v

def signals_of_expr_list : List Expr → List Sig
  | [] => []
  | e :: es => signals_of_expr e ++ signals_of_expr_list es

end

mutual

/-- Every signal a statement mentions. -/
def signals_of_stmt : Stmt → List Sig
  | .assign l r => signals_of_expr l ++ signals_of_expr r
  | .ifS c t f => signals_of_expr c ++ signals_of_stmts t ++ signals_of_stmts f
  | .caseS t arms dflt =>
      signals_of_expr t ++ signals_of_arms arms ++
      (match dflt with
       | some ds => signals_of_stmts ds
       | none => [])
  | .display _ args => args
  | .finish => []

def signals_of_stmts : List Stmt → List Sig
  | [] => []
  | s :: ss => signals_of_stmt s ++ signals_of_stmts ss

def signals_of_arms : List (Const × List Stmt) → List Sig
  | [] => []
  | a :: rest => signals_of_stmts a.2 ++ signals_of_arms rest

end

/-- Modelled from the spec: migen's `list_signals` on a fragment. -/
def list_signals (f : Fragment) : List Sig :=
  (signals_of_stmts f.comb ++
   (f.sync.map (fun p => signals_of_stmts p.2)).flatten).dedup

/-- Modelled from the spec: migen's `list_targets` on a fragment — every
signal written by a combinational or synchronous statement. -/
def list_targets (f : Fragment) : List Sig :=
  (list_targets_stmts f.comb ++
   (f.sync.map (fun p => list_targets_stmts p.2)).flatten).dedup

/-- Comparison by signal creation ordinal, Python's
`sorted(..., key=lambda x: x.duid)`. -/
def duidLe (a b : Sig) : Bool :=
  decide (a.duid ≤ b.duid)

/-- `_print_module` (source lines 306-350).  Structural specials are not
modelled (no claim concerns them), so `list_special_ios` contributes
nothing: `special_outs` and `inouts` are empty and the `inout` port
branch is unreachable.  The source's writes of `sig.type`,  `sig.name`
and  `sig.direction` are emission metadata that the produced text never
reads and are dropped. -/
def _print_module (f : Fragment) (ios : List Sig) (name : String)
    (attr_translate : PyDict) (reg_initialization : Bool) : String :=
  let sigs := list_signals f
  let targets := list_targets f
  let wires := _list_comb_wires f
  let portText := String.intercalate ",\n" ((sortStable duidLe ios).map (fun sig =>
    (let attr := _print_attribute sig.attr attr_translate
     if attr ≠ "" then "\t" ++ attr else "") ++
    (if targets.contains sig then
       (if wires.contains sig then "\toutput wire " ++ _print_signal sig
        else "\toutput reg " ++ _print_signal sig)
     else "\tinput wire " ++ _print_signal sig)))
  let internals := sortStable duidLe (sigs.filter (fun s => !(ios.contains s)))
  let declText := String.join (internals.map (fun sig =>
    (let attr := _print_attribute sig.attr attr_translate
     if attr ≠ "" then attr ++ " " else "") ++
    (if wires.contains sig then "wire " ++ _print_signal sig ++ ";\n"
     else if reg_initialization then
       "reg " ++ _print_signal sig ++ " = " ++
         (_print_expression (.const sig.reset)).1 ++ ";\n"
     else "reg " ++ _print_signal sig ++ ";\n")))
  "module " ++ name ++ "(\n" ++ portText ++ "\n);\n\n" ++ declText ++ "\n"

/-! ## Combinational logic, synthesis strategy (source lines 413-433) -/

/-- The per-group rendering of `_print_combinatorial_logic_synth`
(source lines 418-431): a group of exactly one direct assignment becomes
a continuous assignment, any other group becomes a level-sensitive block
assigning every group target its reset value before replaying the
group's statements (unfiltered, `target_filter=None`). -/
def synth_group_text (blocking_assign : Bool) (g : List Sig × List Stmt) : String :=
  match g.2 with
  | [Stmt.assign l r] => "assign " ++ _print_node .blocking 0 (.assign l r) none
  | stmts =>
      "always @(*) begin\n" ++
      String.join (g.1.map (fun t =>
        "\t" ++ t.name ++ (if blocking_assign then " = " else " <= ") ++
        (_print_expression (.const t.reset)).1 ++ ";\n")) ++
      _print_nodes (if blocking_assign then .blocking else .nonblocking) 1 stmts none ++
      "end\n"

/-- `_print_combinatorial_logic_synth` (source lines 413-433). -/
def _print_combinatorial_logic_synth (f : Fragment) (blocking_assign : Bool) : String :=
  (if f.comb.isEmpty then ""
   else String.join ((group_by_targets f.comb).map (synth_group_text blocking_assign))) ++
  "\n"

/-! ## Synchronous logic (source lines 437-443) -/

/-- The loop body of `_print_synchronous_logic`: one edge-triggered block
per sync item, in the given order; a clock-domain name missing from the
registry is a Python `KeyError`, modelled as `none`. -/
def sync_blocks_go (cds : List ClockDomain) : List (String × List Stmt) → Option String
  | [] => some ""
  | (k, v) :: rest =>
      match cds.find? (fun c => c.name == k) with
      | none => none
      | some cd =>
          (sync_blocks_go cds rest).map (fun tail =>
            "always @(posedge " ++ cd.clk.name ++ ") begin\n" ++
            _print_nodes .signal 1 v none ++ "end\n\n" ++ tail)

/-- `_print_synchronous_logic` (source lines 437-443): sync items sorted
by clock-domain name (`sorted(f.sync.items(), key=itemgetter(0))`), each
rendered as a rising-edge block in `_AT_SIGNAL` mode. -/
def _print_synchronous_logic (f : Fragment) : Option String :=
  sync_blocks_go f.clock_domains
    (sortStable (fun a b => pyStrLe a.1 b.1) f.sync)

/-! ## Namespace (spec-modelled) -/

/-- Modelled from the spec: one disambiguation step of
`migen.fhdl.namer.build_namespace` (not part of this repository's
sources).  Spec §4.1: derive the name, and "append a disambiguating
suffix only on collision, deterministically (e.g., by increasing integer
suffix)"; a name collides when it equals a reserved keyword or an
already-assigned name.  Pigeonhole makes the candidate search succeed
within `reserved.length + used.length + 1` candidates, so the fallback
value of `getD` is never returned. -/
def disambiguate (reserved used : List String) (n : String) : String :=
  ((List.range (reserved.length + used.length + 1)).map
      (fun k => if k = 0 then n else n ++ "_" ++ toString k)
    |>.find? (fun c => !(reserved.contains c) && !(used.contains c))).getD
    (n ++ "_collision")

/-- Modelled from the spec: `build_namespace` (spec §4.1) — assign each
signal's derived name in order, disambiguating against the reserved-word
set and the names already assigned. -/
def build_namespace (names reserved : List String) : List String :=
  names.foldl (fun used n => used ++ [disambiguate reserved used n]) []

/-! ## Conversion entry point (source lines 466-571) -/

/-- `DummyAttrTranslate` (source lines 466-468): a `dict` subclass that
overrides `__getitem__`; it is constructed with no stored entries, so
`dict.get` — which reads stored entries directly and never consults the
`__getitem__` override — returns `None` for every key. -/
def DummyAttrTranslate : PyDict := { entries := [] }

/-- The `__getitem__` override of `DummyAttrTranslate` (source lines
467-468): bracket indexing yields `(k, "true")` for every key `k`. -/
def DummyAttrTranslate.getitem (k : String) : String × AttrValue :=
  (k, AttrValue.str "true")

/-- Modelled from the spec: `list_clock_domains` (migen) — the set of
clock-domain names referenced by the synchronous mapping (spec §3). -/
def list_clock_domains (f : Fragment) : List String :=
  (f.sync.map (fun p => p.1)).dedup

/-- The unresolved-domain message built at source lines 500-503: it names
the missing domain and then lists each registered domain's name. -/
def unresolved_msg (cd_name : String) (cds : List ClockDomain) : String :=
  "Unresolved clock domain " ++ cd_name ++ ", availables:\n" ++
  String.join (cds.map (fun c => "- " ++ c.name ++ "\n"))

/-- A fresh 1-bit unsigned signal with a given name and creation ordinal. -/
def mkClockSig (name : String) (duid : Nat) : Sig :=
  { name := name, signed := false, len := 1,
    reset := { value := 0, nbits := 1, signed := false },
    var := false, duid := duid, attr := [] }

/-- Modelled from the spec: `ClockDomain(cd_name)` (migen, not part of
this repository's sources) creates fresh clock and reset signals named
`<name>_clk` and `<name>_rst`, drawing two fresh creation ordinals from
the global signal counter. -/
def ClockDomain.create (name : String) (duid : Nat) : ClockDomain :=
  { name := name, clk := mkClockSig (name ++ "_clk") duid,
    rst := mkClockSig (name ++ "_rst") (duid + 1) }

/-- The clock-domain verification loop of `convert` (source lines
487-503): for each referenced domain name in sorted order, pass it
through if registered; otherwise create it (appending it to the registry
and adding its clock and reset signals to the `ios` set in place, the
Python `ios |= {cd.clk, cd.rst}`) when `create_clock_domains` is set, or
fail with the unresolved-domain message. -/
def verify_clock_domains (create : Bool) :
    List String → List ClockDomain → List Sig → Nat →
    Except String (List ClockDomain × List Sig × Nat)
  | [], cds, ios, duid => .ok (cds, ios, duid)
  | n :: rest, cds, ios, duid =>
      match cds.find? (fun c => c.name == n) with
      | some _ => verify_clock_domains create rest cds ios duid
      | none =>
          if create then
            let cd := ClockDomain.create n duid
            verify_clock_domains create rest (cds ++ [cd])
              (setUnion ios [cd.clk, cd.rst]) (duid + 2)
          else .error (unresolved_msg n cds)

/-- Modelled from the spec: `generated_banner("//")` from
`litex.build.tools` is not part of this repository's sources; spec §6
makes byte-for-byte determinism a contract, so the banner is a fixed
comment line. -/
def generated_banner : String :=
  "// Generated by the LiteX Verilog backend\n"

/-- The Python-level mutable state threading through successive `convert`
calls: the object stored as the default value of the `ios` parameter
(created once, when `def convert` executes, and mutated in place by
`ios |= {cd.clk, cd.rst}` whenever a call uses the default), and the
global signal-creation counter supplying `duid`s. -/
structure ConvState where
  defaultIos : List Sig
  nextDuid : Nat
deriving DecidableEq, Repr

/-- The `ConvOutput` of one conversion: the output document.  (Auxiliary
data files and the namespace handle are not modelled; no claim reads
them.) -/
structure ConvOutput where
  main_source : String
deriving DecidableEq, Repr

/-- `convert` (source lines 470-571), with the default-argument semantics
of `ios=set()` made explicit: a call passing `none` for `ios` operates on
— and mutates — the shared default set held in `ConvState`.  The
simulation combinational strategy (`regular_comb=False`), the
`display_run`/`dummy_signal` flags, structural specials and the four
external lowering passes (spec §4.8(3): opaque fragment-to-fragment
transforms, modelled as the identity) are outside the claims; namespace
construction is modelled by the resolved name each `Sig` carries. -/
def convert (st : ConvState) (f : Fragment) (iosArg : Option (List Sig))
    (name : String) (attr_translate : PyDict)
    (create_clock_domains reg_initialization blocking_assign : Bool) :
    ConvState × Except String ConvOutput :=
  let ios0 := match iosArg with
    | some s => s
    | none => st.defaultIos
  match verify_clock_domains create_clock_domains
      (sortStable (fun a b => pyStrLe a b) (list_clock_domains f))
      f.clock_domains ios0 st.nextDuid with
  | .error msg => (st, .error msg)
  | .ok (cds, ios, duid2) =>
      let f2 : Fragment := { f with clock_domains := cds }
      let st2 : ConvState :=
        { defaultIos := if iosArg.isNone then ios else st.defaultIos,
          nextDuid := duid2 }
      match _print_synchronous_logic f2 with
      | none => (st2, .error "KeyError")
      | some syncText =>
          (st2, .ok { main_source :=
            generated_banner ++
            _print_module f2 ios name attr_translate reg_initialization ++
            _print_combinatorial_logic_synth f2 blocking_assign ++
            syncText ++
            "endmodule\n" })

/-! ## Auxiliary observations and concrete scenario inputs -/

/-- Running parenthesis balance of a string: opening parentheses minus
closing ones.  Well-formed self-contained expression text balances to 0. -/
def parenBalance (s : String) : Int :=
  s.toList.foldl (fun n c => if c = '(' then n + 1 else if c = ')' then n - 1 else n) 0

/-- The clock-signal name `ns.get_name(f.clock_domains[k].clk)` used by
`_print_synchronous_logic` for a registered domain `k`. -/
def clkName (cds : List ClockDomain) (k : String) : String :=
  match cds.find? (fun c => c.name == k) with
  | some cd => cd.clk.name
  | none => ""

/-- An unsigned 1-bit signal named `x`. -/
def uSig : Sig := ⟨"x", false, 1, ⟨0, 1, false⟩, false, 0, []⟩

/-- A signed 4-bit signal named `y`. -/
def ySig : Sig := ⟨"y", true, 4, ⟨0, 4, true⟩, false, 1, []⟩

/-- An unsigned 1-bit target signal named `t`. -/
def tSig : Sig := ⟨"t", false, 1, ⟨0, 1, false⟩, false, 2, []⟩

/-- An unsigned 4-bit signal named `a`. -/
def aSig : Sig := ⟨"a", false, 4, ⟨0, 4, false⟩, false, 3, []⟩

/-- An unsigned 4-bit signal named `b`. -/
def bSig : Sig := ⟨"b", false, 4, ⟨0, 4, false⟩, false, 4, []⟩

/-- A variable-like (migen `variable=True`) 1-bit signal named `v`. -/
def vSig : Sig := ⟨"v", false, 1, ⟨0, 1, false⟩, true, 5, []⟩

/-- The clock signal of the registered domain `sys`. -/
def sysClk : Sig := ⟨"sys_clk", false, 1, ⟨0, 1, false⟩, false, 6, []⟩

/-- The reset signal of the registered domain `sys`. -/
def sysRst : Sig := ⟨"sys_rst", false, 1, ⟨0, 1, false⟩, false, 7, []⟩

/-- The clock signal of the registered domain `sys2`. -/
def sys2Clk : Sig := ⟨"sys2_clk", false, 1, ⟨0, 1, false⟩, false, 8, []⟩

/-- The reset signal of the registered domain `sys2`. -/
def sys2Rst : Sig := ⟨"sys2_rst", false, 1, ⟨0, 1, false⟩, false, 9, []⟩

/-- A registered clock domain named `sys`. -/
def sysCd : ClockDomain := ⟨"sys", sysClk, sysRst⟩

/-- A registered clock domain named `sys2`. -/
def sys2Cd : ClockDomain := ⟨"sys2", sys2Clk, sys2Rst⟩

/-- A fragment whose synchronous block references the unregistered domain
`sys` (empty clock-domain registry). -/
def F1 : Fragment :=
  ⟨[], [("sys", [.assign (.sig tSig) (.const ⟨1, 1, false⟩)])], []⟩

/-- A fragment whose `sys` block assigns to the variable-like signal `v`. -/
def FV : Fragment :=
  ⟨[], [("sys", [.assign (.sig vSig) (.const ⟨1, 1, false⟩)])], [sysCd]⟩

/-- A fragment with the two registered domains `sys` and `sys2`, listed
with `sys2` first in the synchronous mapping. -/
def FW : Fragment :=
  ⟨[], [("sys2", [.assign (.sig tSig) (.const ⟨1, 1, false⟩)]),
        ("sys", [.assign (.sig tSig) (.const ⟨0, 1, false⟩)])],
   [sysCd, sys2Cd]⟩

/-- A fragment with the single combinational statement `t = a + b`. -/
def FC : Fragment :=
  ⟨[.assign (.sig tSig) (.op2 "+" (.sig aSig) (.sig bSig))], [], []⟩

/-- A fragment whose synchronous block references the unregistered domain
`pll` while only `sys` is registered. -/
def FP : Fragment :=
  ⟨[], [("pll", [.assign (.sig tSig) (.const ⟨1, 1, false⟩)])], [sysCd]⟩
theorem mem_insertLe (le : α → α → Bool) (x : α) (l : List α) (y : α) :
    y ∈ insertLe le x l ↔ y = x ∨ y ∈ l := by
  induction l with
  | nil => simp [insertLe]
  | cons z zs ih =>
      by_cases h : le x z = true
      · simp [insertLe, h]
      · simp only [insertLe, h, if_neg, Bool.not_eq_true, List.mem_cons, ih]
        tauto

theorem mem_sortStable (le : α → α → Bool) (l : List α) (y : α) :
    y ∈ sortStable le l ↔ y ∈ l := by
  induction l with
  | nil => simp [sortStable]
  | cons z zs ih => simp [sortStable, mem_insertLe, ih]

theorem mem_setUnion [BEq α] [LawfulBEq α] (a b : List α) (x : α) :
    x ∈ setUnion a b ↔ x ∈ a ∨ x ∈ b := by
  simp only [setUnion, List.mem_append, List.mem_filter]
  constructor
  · rintro (h | ⟨h, -⟩)
    · exact Or.inl h
    · exact Or.inr h
  · rintro (h | h)
    · exact Or.inl h
    · by_cases ha : x ∈ a
      · exact Or.inl ha
      · refine Or.inr ⟨h, ?_⟩
        simpa using ha

theorem pairwise_insertLe (le : α → α → Bool)
    (htot : ∀ a b, le a b = true ∨ le b a = true)
    (htrans : ∀ a b c, le a b = true → le b c = true → le a c = true)
    (x : α) (l : List α) (h : l.Pairwise (fun a b => le a b = true)) :
    (insertLe le x l).Pairwise (fun a b => le a b = true) := by
  induction l with
  | nil => simp [insertLe]
  | cons z zs ih =>
      rcases h with - | ⟨hz, hzs⟩
      by_cases hxz : le x z = true
      · rw [insertLe, if_pos hxz]
        refine List.Pairwise.cons ?_ (List.Pairwise.cons hz hzs)
        intro y hy
        rcases List.mem_cons.mp hy with rfl | hy
        · exact hxz
        · exact htrans x z y hxz (hz _ hy)
      · rw [insertLe, if_neg hxz]
        refine List.Pairwise.cons ?_ (ih hzs)
        intro y hy
        rw [mem_insertLe] at hy
        rcases hy with rfl | hy
        · rcases htot z y with h | h
          · exact h
          · exact absurd h hxz
        · exact hz _ hy

theorem pairwise_sortStable (le : α → α → Bool)
    (htot : ∀ a b, le a b = true ∨ le b a = true)
    (htrans : ∀ a b c, le a b = true → le b c = true → le a c = true)
    (l : List α) :
    (sortStable le l).Pairwise (fun a b => le a b = true) := by
  induction l with
  | nil => simp [sortStable]
  | cons z zs ih => exact pairwise_insertLe le htot htrans z _ ih


/-! ## Claim theorems -/

/-- Claim C3: for every binary operator other than the sign-preserving
shifts `<<<` and `>>>`, when exactly one operand renders as signed the
other operand's text is wrapped with the sign-extension conversion
`to_signed` before combination; the result's signedness flag is signed
iff at least one operand is signed; and the two shift operators never
force-convert either operand. -/
theorem binary_operator_sign_harmonization (op : String) (a b : Expr) :
    (((_print_expression a).2 = true ∧ (_print_expression b).2 = false ∧
        op ≠ "<<<" ∧ op ≠ ">>>") →
      _print_expression (Expr.op2 op a b) =
        ("(" ++ ((_print_expression a).1 ++ " " ++ op ++ " " ++
           to_signed (_print_expression b).1) ++ ")", true))
  ∧ (((_print_expression a).2 = false ∧ (_print_expression b).2 = true ∧
        op ≠ "<<<" ∧ op ≠ ">>>") →
      _print_expression (Expr.op2 op a b) =
        ("(" ++ (to_signed (_print_expression a).1 ++ " " ++ op ++ " " ++
           (_print_expression b).1) ++ ")", true))
  ∧ ((op = "<<<" ∨ op = ">>>") →
      _print_expression (Expr.op2 op a b) =
        ("(" ++ ((_print_expression a).1 ++ " " ++ op ++ " " ++
           (_print_expression b).1) ++ ")",
         (_print_expression a).2 || (_print_expression b).2))
  ∧ ((_print_expression (Expr.op2 op a b)).2 = true ↔
      (_print_expression a).2 = true ∨ (_print_expression b).2 = true) := by
  rcases hA : _print_expression a with ⟨r1, s1⟩
  rcases hB : _print_expression b with ⟨r2, s2⟩
  refine ⟨?_, ?_, ?_, ?_⟩
  · rintro ⟨h1, h2, h3, h4⟩
    simp only at h1 h2
    subst h1; subst h2
    simp [_print_expression, hA, hB, h3, h4]
  · rintro ⟨h1, h2, h3, h4⟩
    simp only at h1 h2
    subst h1; subst h2
    simp [_print_expression, hA, hB, h3, h4]
  · rintro (rfl | rfl) <;> simp [_print_expression, hA, hB]
  · cases s1 <;> cases s2 <;> simp [_print_expression, hA, hB]

/-- Witness for C3: rendering `x + y` with `x` unsigned and `y` signed
wraps `x` in the sign-extension conversion and returns the signed flag. -/
theorem binary_operator_sign_harmonization_witness :
    _print_expression (Expr.op2 "+" (Expr.sig uSig) (Expr.sig ySig)) =
      ("($signed(\x7b1\x27d0 x\x7d)) + y)", true) := by
  have h := (binary_operator_sign_harmonization "+" (Expr.sig uSig) (Expr.sig ySig)).2.1
    ⟨rfl, rfl, by decide, by decide⟩
  rw [h]
  rfl

/-- Claim C4 (failing part): negating the unsigned 1-bit signal `x` does
apply the sign-extension wrapper before the minus sign and does return
the signed flag, but the wrapper text `$signed({1'd0 x}))` is not a
well-formed concatenation: the comma between the zero bit and the
operand is missing and the text closes one parenthesis more than it
opens, so the emitted negation is not a signed conversion of a
well-formed concatenation. -/
theorem negation_sign_extension_malformed :
    _print_expression (Expr.op1 "-" (Expr.sig uSig)) =
      ("(-$signed(\x7b1\x27d0 x\x7d)))", true)
  ∧ parenBalance (_print_expression (Expr.op1 "-" (Expr.sig uSig))).1 = -1
  ∧ parenBalance (to_signed "x") = -1
  ∧ (',' ∈ (to_signed "x").toList) = False := by
  refine ⟨rfl, by decide, by decide, by decide⟩

/-- Claim C8: a constant renders as
`{minus-if-negative}{bit width}'d{absolute value}` with the returned
signedness flag equal to the constant's declared signed flag; a negative
constant renders as a leading minus followed by the literal of its
absolute magnitude. -/
theorem constant_rendering (c : Const) :
    _print_constant c =
      ((if c.value ≥ 0 then "" else "-") ++
        toString c.nbits ++ "\x27d" ++ toString c.value.natAbs, c.signed)
  ∧ (c.value < 0 →
      (_print_constant c).1 = "-" ++ (_print_constant { c with value := -c.value }).1)
  ∧ (_print_constant c).2 = c.signed := by
  refine ⟨rfl, ?_, rfl⟩
  intro hneg
  have h1 : ¬ (c.value ≥ 0) := by omega
  have h2 : (-c.value ≥ 0) := by omega
  simp only [_print_constant, if_neg h1, if_pos h2, Int.natAbs_neg, String.append_assoc]
  rfl

/-- Witness for C8: the constant `-5` of width 8 renders as `-8'd5`. -/
theorem constant_rendering_witness :
    (_print_constant ⟨-5, 8, true⟩).1 = "-" ++ (_print_constant ⟨5, 8, true⟩).1 := by
  have h := (constant_rendering ⟨-5, 8, true⟩).2.1 (by decide)
  exact h

/-- A value that is not a 1-bit signal fails `_print_slice`'s special
guard. -/
theorem isOneBitSignal_eq_false (v : Expr)
    (h : ∀ s : Sig, v = Expr.sig s → s.len ≠ 1) :
    isOneBitSignal v = false := by
  cases v with
  | sig s => simpa [isOneBitSignal] using h s rfl
  | const c => rfl
  | op1 op a => rfl
  | op2 op a b => rfl
  | op3 a b c => rfl
  | slice w x y => rfl
  | cat l => rfl
  | replicate n w => rfl

/-- Claim C7: for a slice with `stop - start ≥ 1`, slicing a 1-bit signal
(with the precondition `start = 0`) emits the bare signal reference with
no bracketed range; a width-1 slice over any other value emits the
single-index range `[start]`; and a wider slice emits `[stop-1:start]`.
Signedness passes through from the sliced value. -/
theorem slice_rendering (v : Expr) (start stop : Nat) (hw : start + 1 ≤ stop) :
    (∀ s : Sig, v = Expr.sig s → s.len = 1 → start = 0 →
      _print_expression (Expr.slice v start stop) = (s.name, s.signed))
  ∧ ((∀ s : Sig, v = Expr.sig s → s.len ≠ 1) → stop = start + 1 →
      _print_expression (Expr.slice v start stop) =
        ((_print_expression v).1 ++ ("[" ++ toString start ++ "]"),
         (_print_expression v).2))
  ∧ ((∀ s : Sig, v = Expr.sig s → s.len ≠ 1) → start + 1 < stop →
      _print_expression (Expr.slice v start stop) =
        ((_print_expression v).1 ++
           ("[" ++ toString (stop - 1) ++ ":" ++ toString start ++ "]"),
         (_print_expression v).2)) := by
  refine ⟨?_, ?_, ?_⟩
  · rintro s rfl hlen rfl
    simp [_print_expression, isOneBitSignal, hlen, String.append_empty]
  · intro hns hstop
    subst hstop
    have h1 : isOneBitSignal v = false := isOneBitSignal_eq_false v hns
    have h2 : ¬ (start + 1 - start > 1) := by omega
    rcases hv : _print_expression v with ⟨r, sg⟩
    simp [_print_expression, h1, h2, hv]
  · intro hns hlt
    have h1 : isOneBitSignal v = false := isOneBitSignal_eq_false v hns
    have h2 : stop - start > 1 := by omega
    rcases hv : _print_expression v with ⟨r, sg⟩
    simp [_print_expression, h1, h2, hv]

/-- Witness for C7: `y[1]` for the width-1 slice `[1,2)` of the 4-bit
signal `y`, and the bare reference `x` for the slice `[0,1)` of the
1-bit signal `x`. -/
theorem slice_rendering_witness :
    _print_expression (Expr.slice (Expr.sig ySig) 1 2) = ("y[1]", true)
  ∧ _print_expression (Expr.slice (Expr.sig uSig) 0 1) = ("x", false) := by
  constructor
  · have h := (slice_rendering (Expr.sig ySig) 1 2 (by decide)).2.1
      (fun s hs => by cases hs; decide) rfl
    rw [h]
    rfl
  · have h := (slice_rendering (Expr.sig uSig) 0 1 (by decide)).1 uSig rfl rfl rfl
    rw [h]
    rfl

set_option maxRecDepth 1000000 in
/-- Claim C5 (failing part): the set named
`_ieee_1800_2017_verilog_reserved_keywords` does not contain the IEEE
1800-2017 keywords `repeat`, `union` and `uwire` — it contains the
whitespace-corrupted strings `"      repeat"`, `"       union"` and
`"   uwire"` instead — so the namespace, which disambiguates only against
the set it is given, assigns the bare keyword `repeat` unchanged, while a
correctly listed keyword such as `always` is disambiguated. -/
theorem reserved_keyword_list_corrupted :
    "repeat" ∉ _ieee_1800_2017_verilog_reserved_keywords
  ∧ "      repeat" ∈ _ieee_1800_2017_verilog_reserved_keywords
  ∧ "union" ∉ _ieee_1800_2017_verilog_reserved_keywords
  ∧ "       union" ∈ _ieee_1800_2017_verilog_reserved_keywords
  ∧ "uwire" ∉ _ieee_1800_2017_verilog_reserved_keywords
  ∧ "   uwire" ∈ _ieee_1800_2017_verilog_reserved_keywords
  ∧ build_namespace ["repeat"] _ieee_1800_2017_verilog_reserved_keywords = ["repeat"]
  ∧ build_namespace ["always"] _ieee_1800_2017_verilog_reserved_keywords = ["always_1"] := by
  refine ⟨by decide, by decide, by decide, by decide, by decide, by decide, by decide, by decide⟩

/-- Claim C10 (failing part): under the default attribute translator the
string-named attribute `keep` is silently dropped — `_print_attribute`
looks attributes up with `dict.get`, which reads `DummyAttrTranslate`'s
(empty) stored entries and never its `__getitem__` override, even though
that override maps every name `k` to `(k, "true")`.  A translator that
stores the entry does emit the attribute. -/
theorem default_attr_translate_drops :
    _print_attribute [Attr.str "keep"] DummyAttrTranslate = ""
  ∧ DummyAttrTranslate.getitem "keep" = ("keep", AttrValue.str "true")
  ∧ PyDict.get DummyAttrTranslate "keep" = none
  ∧ _print_attribute [Attr.str "keep"]
      { entries := [("keep", ("keep", AttrValue.str "true"))] } =
      "(* keep = \"true\" *)" :=
  ⟨rfl, rfl, rfl, rfl⟩

/-- Folding string concatenation factors out the accumulator. -/
theorem strFoldl_append (l : List String) (init : String) :
    l.foldl (fun a b => a ++ b) init = init ++ l.foldl (fun a b => a ++ b) "" := by
  induction l generalizing init with
  | nil => simp [String.append_empty]
  | cons x xs ih =>
      simp only [List.foldl_cons]
      rw [ih (init ++ x), ih ("" ++ x), String.append_assoc]
      rfl

/-- `String.join` distributes over `cons`. -/
theorem strJoin_cons (x : String) (xs : List String) :
    String.join (x :: xs) = x ++ String.join xs := by
  show (x :: xs).foldl (fun a b => a ++ b) "" = x ++ xs.foldl (fun a b => a ++ b) ""
  simp only [List.foldl_cons]
  exact strFoldl_append xs ("" ++ x)

/-- Unfolding of `pyCharListLe` on two non-empty lists. -/
theorem pyCharListLe_cons_iff (a b : Char) (as' bs : List Char) :
    pyCharListLe (a :: as') (b :: bs) = true ↔
      a.toNat < b.toNat ∨ (a.toNat = b.toNat ∧ pyCharListLe as' bs = true) := by
  by_cases h1 : a.toNat < b.toNat
  · simp [pyCharListLe, h1]
  · by_cases h2 : b.toNat < a.toNat
    · simp [pyCharListLe, h1, h2]
      omega
    · have heq : a.toNat = b.toNat := by omega
      simp [pyCharListLe, h1, h2, heq]

/-- `pyCharListLe` is total. -/
theorem pyCharListLe_total : ∀ as bs : List Char,
    pyCharListLe as bs = true ∨ pyCharListLe bs as = true
  | [], _ => Or.inl rfl
  | _ :: _, [] => Or.inr rfl
  | a :: as', b :: bs => by
      rcases Nat.lt_trichotomy a.toNat b.toNat with h | h | h
      · exact Or.inl ((pyCharListLe_cons_iff a b as' bs).mpr (Or.inl h))
      · rcases pyCharListLe_total as' bs with ih | ih
        · exact Or.inl ((pyCharListLe_cons_iff a b as' bs).mpr (Or.inr ⟨h, ih⟩))
        · exact Or.inr ((pyCharListLe_cons_iff b a bs as').mpr (Or.inr ⟨h.symm, ih⟩))
      · exact Or.inr ((pyCharListLe_cons_iff b a bs as').mpr (Or.inl h))

/-- `pyCharListLe` is transitive. -/
theorem pyCharListLe_trans : ∀ as bs cs : List Char,
    pyCharListLe as bs = true → pyCharListLe bs cs = true →
    pyCharListLe as cs = true
  | [], _, _, _, _ => rfl
  | _ :: _, [], _, h1, _ => by simp [pyCharListLe] at h1
  | _ :: _, _ :: _, [], _, h2 => by simp [pyCharListLe] at h2
  | a :: as', b :: bs, c :: cs, h1, h2 => by
      rcases (pyCharListLe_cons_iff a b as' bs).mp h1 with hab | ⟨hab, hrec1⟩ <;>
        rcases (pyCharListLe_cons_iff b c bs cs).mp h2 with hbc | ⟨hbc, hrec2⟩
      · exact (pyCharListLe_cons_iff a c as' cs).mpr (Or.inl (by omega))
      · exact (pyCharListLe_cons_iff a c as' cs).mpr (Or.inl (by omega))
      · exact (pyCharListLe_cons_iff a c as' cs).mpr (Or.inl (by omega))
      · exact (pyCharListLe_cons_iff a c as' cs).mpr
          (Or.inr ⟨by omega, pyCharListLe_trans as' bs cs hrec1 hrec2⟩)

/-- `pyStrLe` is total. -/
theorem pyStrLe_total (a b : String) :
    pyStrLe a b = true ∨ pyStrLe b a = true :=
  pyCharListLe_total a.data b.data

/-- `pyStrLe` is transitive. -/
theorem pyStrLe_trans (a b c : String)
    (h1 : pyStrLe a b = true) (h2 : pyStrLe b c = true) :
    pyStrLe a c = true :=
  pyCharListLe_trans a.data b.data c.data h1 h2

/-- When every synchronous item's domain is registered, the synchronous
section is the concatenation of one rising-edge block per item, in the
order given. -/
theorem sync_blocks_go_spec (cds : List ClockDomain) (items : List (String × List Stmt))
    (h : ∀ p ∈ items, (cds.find? (fun c => c.name == p.1)).isSome) :
    sync_blocks_go cds items =
      some (String.join (items.map (fun p =>
        "always @(posedge " ++ clkName cds p.1 ++ ") begin\n" ++
        _print_nodes At.signal 1 p.2 none ++ "end\n\n"))) := by
  induction items with
  | nil => rfl
  | cons p rest ih =>
      obtain ⟨cd, hcd⟩ := Option.isSome_iff_exists.mp (h p (by simp))
      have hrest := ih (fun q hq => h q (by simp [hq]))
      simp [sync_blocks_go, hcd, hrest, clkName, strJoin_cons, String.append_assoc]

/-- Claim C6 is refuted as stated: in the fragment `FV` the synchronous
statement assigns to the variable-like signal `v`, and the emitted block
renders it with the blocking `=`, not in non-blocking mode — `_AT_SIGNAL`
mode differs from `_AT_NONBLOCKING` on this statement. -/
theorem sync_nonblocking_counterexample :
    _print_synchronous_logic FV =
      some "always @(posedge sys_clk) begin\n\tv = 1\x27d1;\nend\n\n"
  ∧ _print_nodes At.signal 1
      [Stmt.assign (Expr.sig vSig) (Expr.const ⟨1, 1, false⟩)] none ≠
    _print_nodes At.nonblocking 1
      [Stmt.assign (Expr.sig vSig) (Expr.const ⟨1, 1, false⟩)] none :=
  ⟨rfl, by decide⟩

/-- Claim C6 (amended): when every referenced domain is registered, the
sequential section is exactly one rising-edge `always` block per
synchronous item, the blocks ordered lexicographically by domain name,
each gated on that domain's clock signal; statements inside are rendered
in context-dependent (`_AT_SIGNAL`) mode — non-blocking `<=` unless the
assignment target is variable-like, which renders blocking `=`. -/
theorem sync_blocks_sorted (f : Fragment)
    (h : ∀ p ∈ f.sync, (f.clock_domains.find? (fun c => c.name == p.1)).isSome) :
    _print_synchronous_logic f =
      some (String.join ((sortStable (fun a b => pyStrLe a.1 b.1) f.sync).map (fun p =>
        "always @(posedge " ++ clkName f.clock_domains p.1 ++ ") begin\n" ++
        _print_nodes At.signal 1 p.2 none ++ "end\n\n")))
  ∧ (sortStable (fun a b => pyStrLe a.1 b.1) f.sync).Pairwise
      (fun a b => pyStrLe a.1 b.1 = true)
  ∧ (∀ lvl (l r : Expr), _print_node At.signal lvl (Stmt.assign l r) none =
      tabs lvl ++ (_print_expression l).1 ++
      (if is_variable l then " = " else " <= ") ++ (_print_expression r).1 ++ ";\n") := by
  refine ⟨?_, ?_, ?_⟩
  · exact sync_blocks_go_spec f.clock_domains _
      (fun p hp => h p ((mem_sortStable _ _ _).mp hp))
  · exact pairwise_sortStable (fun a b : String × List Stmt => pyStrLe a.1 b.1)
      (fun a b => pyStrLe_total a.1 b.1)
      (fun a b c hab hbc => pyStrLe_trans a.1 b.1 c.1 hab hbc)
      f.sync
  · intro lvl l r
    simp [_print_node, tfMisses]

/-- Witness for amended C6: the fragment `FW` lists `sys2` before `sys`,
yet the emitted sequential section holds exactly two rising-edge blocks
with `sys` first. -/
theorem sync_blocks_sorted_witness :
    _print_synchronous_logic FW =
      some ("always @(posedge sys_clk) begin\n\tt <= 1\x27d0;\nend\n\n" ++
            "always @(posedge sys2_clk) begin\n\tt <= 1\x27d1;\nend\n\n") := by
  have h := (sync_blocks_sorted FW (by decide)).1
  rw [h]
  rfl

/-- Claim C2: for every group produced by target grouping of the
combinational statements, a group of exactly one direct unconditional
assignment is emitted as a continuous assignment with no surrounding
block; every other group is emitted as a level-sensitive `always @(*)`
block that first assigns every group target its reset value and only
then replays the group's statements in their original order.  The
synthesis combinational section is the concatenation of the group
texts. -/
theorem comb_synth_groups (f : Fragment) (ba : Bool) (g : List Sig × List Stmt)
    (hg : g ∈ group_by_targets f.comb) :
    (∀ l r : Expr, g.2 = [Stmt.assign l r] →
      synth_group_text ba g =
        "assign " ++ ((_print_expression l).1 ++ " = " ++ (_print_expression r).1 ++ ";\n"))
  ∧ ((∀ l r : Expr, g.2 ≠ [Stmt.assign l r]) →
      synth_group_text ba g =
        "always @(*) begin\n" ++
        String.join (g.1.map (fun t =>
          "\t" ++ t.name ++ (if ba then " = " else " <= ") ++
          (_print_expression (Expr.const t.reset)).1 ++ ";\n")) ++
        _print_nodes (if ba then At.blocking else At.nonblocking) 1 g.2 none ++
        "end\n")
  ∧ (f.comb ≠ [] →
      _print_combinatorial_logic_synth f ba =
        String.join ((group_by_targets f.comb).map (synth_group_text ba)) ++ "\n") := by
  obtain ⟨gt, gs⟩ := g
  refine ⟨?_, ?_, ?_⟩
  · rintro l r h
    simp only at h
    subst h
    simp only [synth_group_text, _print_node, tfMisses]
    rfl
  · intro h
    rcases gs with _ | ⟨s, rest⟩
    · simp [synth_group_text]
    · rcases s with ⟨l, r⟩ | ⟨c, t, e⟩ | ⟨te, arms, d⟩ | ⟨ds, args⟩ | _
      · rcases rest with _ | ⟨s2, rest2⟩
        · exact absurd rfl (h l r)
        · simp [synth_group_text]
      · simp [synth_group_text]
      · simp [synth_group_text]
      · simp [synth_group_text]
      · simp [synth_group_text]
  · intro h
    have he : f.comb.isEmpty = false := by
      cases hc : f.comb with
      | nil => exact absurd hc h
      | cons a l => rfl
    simp [_print_combinatorial_logic_synth, he]

/-- Witness for C2: the fragment `FC` holds the single combinational
statement `t = a + b`; its group renders as the continuous assignment
`assign t = (a + b);` with no surrounding block, and the combinational
section is exactly that text. -/
theorem comb_synth_groups_witness :
    synth_group_text false
      ([tSig], [Stmt.assign (Expr.sig tSig) (Expr.op2 "+" (Expr.sig aSig) (Expr.sig bSig))]) =
      "assign t = (a + b);\n"
  ∧ _print_combinatorial_logic_synth FC false = "assign t = (a + b);\n\n" := by
  have hmem : ([tSig], [Stmt.assign (Expr.sig tSig) (Expr.op2 "+" (Expr.sig aSig) (Expr.sig bSig))]) ∈
      group_by_targets FC.comb := by
    rw [show group_by_targets FC.comb =
      [([tSig], [Stmt.assign (Expr.sig tSig) (Expr.op2 "+" (Expr.sig aSig) (Expr.sig bSig))])] from rfl]
    exact List.mem_singleton.mpr rfl
  have h := comb_synth_groups FC false _ hmem
  constructor
  · rw [h.1 _ _ rfl]
    rfl
  · rw [h.2.2 (by simp [FC])]
    rfl

/-- With auto-creation disabled, a missing referenced domain makes the
verification loop fail with the unresolved-domain message of the first
missing name, the registry unchanged. -/
theorem verify_false_error (l : List String) (cds : List ClockDomain)
    (ios : List Sig) (duid : Nat)
    (h : ∃ d ∈ l, cds.find? (fun c => c.name == d) = none) :
    ∃ d ∈ l, cds.find? (fun c => c.name == d) = none ∧
      verify_clock_domains false l cds ios duid =
        .error (unresolved_msg d cds) := by
  induction l generalizing ios duid with
  | nil => simp at h
  | cons n rest ih =>
      cases hn : cds.find? (fun c => c.name == n) with
      | none =>
          exact ⟨n, by simp, hn, by simp [verify_clock_domains, hn]⟩
      | some cd =>
          obtain ⟨d, hd, hfind⟩ := h
          rcases List.mem_cons.mp hd with rfl | hd
          · rw [hn] at hfind; cases hfind
          · obtain ⟨d2, hd2, hf2, he⟩ := ih ios duid ⟨d, hd, hfind⟩
            exact ⟨d2, List.mem_cons_of_mem _ hd2, hf2,
              by simp [verify_clock_domains, hn, he]⟩

/-- With auto-creation enabled, the verification loop succeeds; the
registry and the ios set only grow, and every referenced name missing
from the initial registry ends with a domain of that name whose clock
and reset signals are members of the final ios set. -/
theorem verify_true_creates : ∀ (l : List String) (cds : List ClockDomain)
    (ios : List Sig) (duid : Nat),
    ∃ cds2 ios2 duid2,
      verify_clock_domains true l cds ios duid = .ok (cds2, ios2, duid2) ∧
      (∀ c ∈ cds, c ∈ cds2) ∧ (∀ s ∈ ios, s ∈ ios2) ∧
      (∀ d ∈ l, cds.find? (fun c => c.name == d) = none →
        ∃ cd, cd ∈ cds2 ∧ cd.name = d ∧ cd.clk ∈ ios2 ∧ cd.rst ∈ ios2) := by
  intro l
  induction l with
  | nil =>
      intro cds ios duid
      exact ⟨cds, ios, duid, rfl, fun c hc => hc, fun s hs => hs, by simp⟩
  | cons n rest ih =>
      intro cds ios duid
      cases hn : cds.find? (fun c => c.name == n) with
      | some cd =>
          obtain ⟨cds2, ios2, duid2, heq, hmc, hmi, hpost⟩ := ih cds ios duid
          refine ⟨cds2, ios2, duid2, by simp [verify_clock_domains, hn, heq],
            hmc, hmi, ?_⟩
          intro d hd hfind
          rcases List.mem_cons.mp hd with rfl | hd
          · rw [hn] at hfind; cases hfind
          · exact hpost d hd hfind
      | none =>
          obtain ⟨cds2, ios2, duid2, heq, hmc, hmi, hpost⟩ :=
            ih (cds ++ [ClockDomain.create n duid])
              (setUnion ios [(ClockDomain.create n duid).clk,
                             (ClockDomain.create n duid).rst]) (duid + 2)
          have hcdmem : ClockDomain.create n duid ∈ cds2 :=
            hmc _ (List.mem_append_right _ (List.mem_singleton.mpr rfl))
          have hclk : (ClockDomain.create n duid).clk ∈ ios2 :=
            hmi _ ((mem_setUnion _ _ _).mpr (Or.inr (by simp)))
          have hrst : (ClockDomain.create n duid).rst ∈ ios2 :=
            hmi _ ((mem_setUnion _ _ _).mpr (Or.inr (by simp)))
          refine ⟨cds2, ios2, duid2, by simp [verify_clock_domains, hn, heq],
            fun c hc => hmc c (List.mem_append_left _ hc),
            fun s hs => hmi s ((mem_setUnion _ _ _).mpr (Or.inl hs)), ?_⟩
          intro d hd hfind
          rcases List.mem_cons.mp hd with rfl | hd
          · exact ⟨ClockDomain.create d duid, hcdmem, rfl, hclk, hrst⟩
          · cases hfound : (cds ++ [ClockDomain.create n duid]).find?
                (fun c => c.name == d) with
            | none => exact hpost d hd hfound
            | some c2 =>
                have hp2 : (c2.name == d) = true := by
                  have := List.find?_some hfound
                  simpa using this
                have hm2 : c2 ∈ cds ++ [ClockDomain.create n duid] :=
                  List.mem_of_find?_eq_some hfound
                rcases List.mem_append.mp hm2 with hm2 | hm2
                · exact absurd hp2 (by
                    have := List.find?_eq_none.mp hfind c2 hm2
                    simpa using this)
                · have hc2 : c2 = ClockDomain.create n duid :=
                    List.mem_singleton.mp hm2
                  have hnd : (ClockDomain.create n duid).name = d := by
                    rw [← hc2]; exact beq_iff_eq.mp hp2
                  exact ⟨ClockDomain.create n duid, hcdmem, hnd, hclk, hrst⟩

/-- Claim C9: if a synchronous block references a clock-domain name
absent from the registry and auto-creation is disabled, `convert` fails
with an unresolved-domain error whose message names a referenced missing
domain and lists every registered domain's name, producing no output
document; with auto-creation enabled the verification phase succeeds and
every missing referenced name ends with a created domain of that name
whose clock and reset signals are members of the resulting ios (module
port) set. -/
theorem unresolved_clock_domain (st : ConvState) (f : Fragment)
    (iosArg : Option (List Sig)) (nm : String) (tr : PyDict) (ri ba : Bool) :
    ((∃ d ∈ list_clock_domains f,
        f.clock_domains.find? (fun c => c.name == d) = none) →
      ∃ d ∈ list_clock_domains f,
        f.clock_domains.find? (fun c => c.name == d) = none ∧
        (convert st f iosArg nm tr false ri ba).2 =
          .error (unresolved_msg d f.clock_domains))
  ∧ (∀ ios duid, ∃ cds2 ios2 duid2,
      verify_clock_domains true
          (sortStable (fun a b => pyStrLe a b) (list_clock_domains f))
          f.clock_domains ios duid = .ok (cds2, ios2, duid2) ∧
      ∀ d ∈ list_clock_domains f,
        f.clock_domains.find? (fun c => c.name == d) = none →
        ∃ cd, cd ∈ cds2 ∧ cd.name = d ∧ cd.clk ∈ ios2 ∧ cd.rst ∈ ios2) := by
  constructor
  · rintro ⟨d, hd, hfind⟩
    obtain ⟨d2, hd2, hf2, he⟩ := verify_false_error
      (sortStable (fun a b => pyStrLe a b) (list_clock_domains f)) f.clock_domains
      (match iosArg with | some s => s | none => st.defaultIos) st.nextDuid
      ⟨d, (mem_sortStable _ _ _).mpr hd, hfind⟩
    refine ⟨d2, (mem_sortStable _ _ _).mp hd2, hf2, ?_⟩
    simp only [convert, he]
  · intro ios duid
    obtain ⟨cds2, ios2, duid2, heq, -, -, hpost⟩ := verify_true_creates
      (sortStable (fun a b => pyStrLe a b) (list_clock_domains f))
      f.clock_domains ios duid
    exact ⟨cds2, ios2, duid2, heq, fun d hd hf =>
      hpost d ((mem_sortStable _ _ _).mpr hd) hf⟩

/-- Witness for C9: fragment `FP` references domain `pll` with only
`sys` registered; with auto-creation disabled, conversion fails with the
unresolved-domain error naming `pll` and listing `sys`. -/
theorem unresolved_clock_domain_witness :
    (convert ⟨[], 0⟩ FP none "top" DummyAttrTranslate false true false).2 =
      .error "Unresolved clock domain pll, availables:\n- sys\n" := by
  obtain ⟨d, hd, -, he⟩ := (unresolved_clock_domain ⟨[], 0⟩ FP none "top"
      DummyAttrTranslate true false).1 ⟨"pll", by decide, by rfl⟩
  rw [show list_clock_domains FP = ["pll"] from rfl] at hd
  have hdp : d = "pll" := List.mem_singleton.mp hd
  subst hdp
  rw [he]
  rfl

/-- Claim C1 is refuted by the code: `convert`'s `ios` parameter has the
mutable default `set()`, created once at function definition, and
`ios |= {cd.clk, cd.rst}` mutates it in place.  Converting the fragment
`F1` (whose synchronous block auto-creates the domain `sys`) twice
through the default argument: the first call leaves the created
clock/reset signals in the shared default set, and the second,
identically-configured call on the same fragment emits a different
document (its port list holds `sys_clk`/`sys_rst` twice) — mutable state
is shared between calls and repeated conversion with a fixed fragment
and configuration is not byte-identical. -/
theorem convert_default_ios_shared :
    (convert ⟨[], 10⟩ F1 none "top" DummyAttrTranslate true true false).1.defaultIos ≠ []
  ∧ (∃ o1 o2,
      (convert ⟨[], 10⟩ F1 none "top" DummyAttrTranslate true true false).2 = .ok o1 ∧
      (convert (convert ⟨[], 10⟩ F1 none "top" DummyAttrTranslate true true false).1
          F1 none "top" DummyAttrTranslate true true false).2 = .ok o2 ∧
      o1.main_source ≠ o2.main_source) :=
  ⟨by decide, _, _, rfl, rfl, by decide⟩
